import Mathlib

/-!
Shallow embedding of the KaomojiReplacer core (SearchEngine.js and
EmoticonReplacer.js) and proofs about it.

Strings are embedded as `List Char` (JS strings; the relevant characters are
all in the basic multilingual plane).  JS floating point arithmetic is
embedded as exact arithmetic in a linear ordered field `K`; the only
transcendental operation, `Math.log`, is abstracted as a parameter
`lg : ℚ → K`, instantiated with `Real.log` where a claim depends on the
actual logarithm.
-/

namespace Kaomoji

abbrev Str := List Char

/-! ### Tokenizer (`SearchEngine._tokenize`) -/

/-- Characters in the CJK range `一`–`龥` of the source regexes. -/
def isCJK (c : Char) : Bool :=
  decide (0x4e00 ≤ c.toNat) && decide (c.toNat ≤ 0x9fa5)

/-- Characters kept by the cleaning regex `[^一-龥a-zA-Z0-9]`:
CJK ideographs, ASCII letters and ASCII digits. -/
def isAllowedChar (c : Char) : Bool :=
  isCJK c || ((decide ('a' ≤ c) && decide (c ≤ 'z')) ||
    (decide ('A' ≤ c) && decide (c ≤ 'Z')) ||
    (decide ('0' ≤ c) && decide (c ≤ '9')))

/-- Deduplication preserving first occurrences, fuel-indexed to keep the
recursion structural (any fuel at least the list length is enough, since
filtering only shortens the tail). -/
def jsDedupAux {α : Type u} [DecidableEq α] : ℕ → List α → List α
  | 0, _ => []
  | _ + 1, [] => []
  | fuel + 1, a :: l => a :: jsDedupAux fuel (l.filter (fun b => decide (b ≠ a)))

/-- Deduplication preserving first occurrences, as `[...new Set(xs)]` does. -/
def jsDedup {α : Type u} [DecidableEq α] (l : List α) : List α :=
  jsDedupAux l.length l

/-- Whole-word terms: the source replaces every non-allowed character by a
space and splits on whitespace runs, dropping empties; equivalently the
maximal runs of allowed characters. -/
def wordsOf (text : Str) : List Str :=
  (text.splitOnP (fun c => !isAllowedChar c)).filter (fun w => decide (w ≠ []))

/-- Maximal runs of CJK ideographs of the original text,
`text.match(/[一-龥]+/g)`. -/
def cjkRuns (text : Str) : List Str :=
  (text.splitOnP (fun c => !isCJK c)).filter (fun w => decide (w ≠ []))

/-- All contiguous substrings of length `2 .. min 4 chunk.length` of a CJK
run, in the source's loop order (`chunk.slice(i, i + len)`). -/
def chunkNgrams (chunk : Str) : List Str :=
  (List.range' 2 (min 4 chunk.length - 1)).flatMap (fun len =>
    (List.range (chunk.length - len + 1)).map (fun i => (chunk.drop i).take len))

/-- Terms generated from one CJK run: the 2..4-grams plus every single
character. -/
def chunkTerms (chunk : Str) : List Str :=
  chunkNgrams chunk ++ chunk.map (fun c => [c])

/-- `SearchEngine._tokenize`. -/
def tokenize (text : Str) : List Str :=
  jsDedup (wordsOf text ++ (cjkRuns text).flatMap chunkTerms)

/-! ### Corpus entries and indexed documents (`SearchEngine.buildIndex`) -/

/-- A corpus entry as passed to `buildIndex`; `weight`/`category` may be
absent (modelling JS `undefined`). -/
structure Entry where
  kaomoji : Str
  keywords : List Str
  weight : Option ℚ := none
  category : Option Str := none
deriving DecidableEq

/-- One indexed document.  The source also precomputes frequency maps and an
inverted character index; those caches are pure performance devices and are
embedded as the functions `Doc.kwTF`, `Doc.charTF`, `Doc.charToMulti` below,
extensionally equal to the cached maps. -/
structure Doc where
  kaomoji : Str
  keywords : List Str
  weight : ℚ
  category : Str
deriving DecidableEq

/-- JS `x || d` on a possibly-absent number: both `undefined` and `0` are
falsy and give the default. -/
def jsOrNum (v : Option ℚ) (d : ℚ) : ℚ :=
  match v with
  | none => d
  | some x => if x = 0 then d else x

/-- JS `x || ''` on a possibly-absent string. -/
def jsOrStr (v : Option Str) : Str :=
  match v with
  | none => []
  | some s => if s = [] then [] else s

/-- The per-entry derivation in `buildIndex`: `weight: item.weight || 1.0`,
`category: item.category || ''`. -/
def mkDoc (e : Entry) : Doc :=
  { kaomoji := e.kaomoji, keywords := e.keywords,
    weight := jsOrNum e.weight 1, category := jsOrStr e.category }

/-- `keywords.flatMap(keyword => keyword.split(''))`. -/
def Doc.chars (d : Doc) : List Char := d.keywords.flatten

/-- Lookup in the `keywordFreq` map (`get(term) || 0`). -/
def Doc.kwTF (d : Doc) (t : Str) : ℕ := d.keywords.count t

/-- Lookup in the `charFreq` map (`get(char) || 0`). -/
def Doc.charTF (d : Doc) (c : Char) : ℕ := d.chars.count c

/-- `keywords.filter(kw => kw.length >= 2)`. -/
def Doc.multiCharKeywords (d : Doc) : List Str :=
  d.keywords.filter (fun kw => decide (2 ≤ kw.length))

/-- Lookup in the `charToMultiCharKeywords` inverted index: the
multi-character keywords of the document containing character `c`, in
keyword order (`get(c) || []`). -/
def Doc.charToMulti (d : Doc) (c : Char) : List Str :=
  d.multiCharKeywords.filter (fun kw => decide (c ∈ kw))

/-- Constructor configuration; absent fields model omitted options. -/
structure Config where
  k1 : Option ℚ := none
  b : Option ℚ := none
  charWeight : Option ℚ := none
deriving DecidableEq

/-- The engine: BM25 parameters plus the built index.  The averaged lengths
and IDF tables the source stores on `this` are embedded as the functions
`avgDocLength`, `avgCharDocLength`, `termDF`, `charDF`, `termIdf`, `charIdf`
of the document list, extensionally equal to the stored values. -/
structure Engine where
  k1 : ℚ
  b : ℚ
  charWeight : ℚ
  documents : List Doc
deriving DecidableEq

/-- The constructor: `this.k1 = config.k1 || 1.5`, `this.b = config.b ||
0.75`, `this.charWeight = config.charWeight || 0.6`, empty index. -/
def mkEngine (cfg : Config) : Engine :=
  { k1 := jsOrNum cfg.k1 (3 / 2), b := jsOrNum cfg.b (3 / 4),
    charWeight := jsOrNum cfg.charWeight (3 / 5), documents := [] }

/-- `buildIndex`: total replacement of the document list. -/
def buildIndex (e : Engine) (entries : List Entry) : Engine :=
  { e with documents := entries.map mkDoc }

/-- Average whole-term document length (`totalLength / N`). -/
def avgDocLength (docs : List Doc) : ℚ :=
  (docs.map (fun d => (d.keywords.length : ℚ))).sum / (docs.length : ℚ)

/-- Average character document length. -/
def avgCharDocLength (docs : List Doc) : ℚ :=
  (docs.map (fun d => (d.chars.length : ℚ))).sum / (docs.length : ℚ)

/-- Document frequency of a whole term: in how many documents it occurs. -/
def termDF (docs : List Doc) (t : Str) : ℕ :=
  docs.countP (fun d => decide (t ∈ d.keywords))

/-- Document frequency of a character. -/
def charDF (docs : List Doc) (c : Char) : ℕ :=
  docs.countP (fun d => decide (c ∈ d.chars))

/-- The argument of the logarithm in `_calculateIDF`:
`(N - df + 0.5) / (df + 0.5) + 1`. -/
def idfArg (N df : ℕ) : ℚ :=
  ((N : ℚ) - (df : ℚ) + 1 / 2) / ((df : ℚ) + 1 / 2) + 1

/-! ### BM25 scoring (`SearchEngine._calculateBM25`)

Scores live in a linear ordered field `K`; `lg : ℚ → K` abstracts
`Math.log`. -/

variable {K : Type u} [LinearOrderedField K]

/-- JS `a || b` on numbers: `0` is falsy. -/
def jsOr (a b : K) : K := if a = 0 then b else a

/-- Lookup in the whole-term IDF map built by `_calculateIDF`
(`this.idf.get(t) || 0`): the map holds a key exactly for terms occurring in
at least one document. -/
def termIdf (lg : ℚ → K) (docs : List Doc) (t : Str) : K :=
  if 0 < termDF docs t then lg (idfArg docs.length (termDF docs t)) else 0

/-- Lookup in the character IDF map (`this.charIdf.get(c) || 0`). -/
def charIdf (lg : ℚ → K) (docs : List Doc) (c : Char) : K :=
  if 0 < charDF docs c then lg (idfArg docs.length (charDF docs c)) else 0

/-- The non-IDF factor of one BM25 contribution:
`tf*(k1+1) / (tf + k1*(1 - b + b*(docLen/avgLen)))`. -/
def bmFrac (k1 b : ℚ) (tf dl : ℕ) (avg : ℚ) : ℚ :=
  ((tf : ℚ) * (k1 + 1)) / ((tf : ℚ) + k1 * (1 - b + b * ((dl : ℚ) / avg)))

/-- Step 1 of `_calculateBM25`: classic BM25 over the whole query terms
present in the document. -/
def wholeTermScore (lg : ℚ → K) (e : Engine) (d : Doc) (queryTerms : List Str) : K :=
  (queryTerms.map (fun t =>
    if d.kwTF t = 0 then 0
    else termIdf lg e.documents t *
      ((bmFrac e.k1 e.b (d.kwTF t) d.keywords.length (avgDocLength e.documents) : ℚ) : K))).sum

/-- The borrowed term frequency of a lone query character: the summed
keyword term frequency of the document's multi-character keywords containing
it. -/
def borrowTF (d : Doc) (c : Char) : ℕ :=
  ((d.charToMulti c).map (fun kw => d.kwTF kw)).sum

/-- The IDF used for a borrowed contribution:
`this.idf.get(c) || this.charIdf.get(c) || 0`. -/
def borrowIdf (lg : ℚ → K) (docs : List Doc) (c : Char) : K :=
  jsOr (termIdf lg docs [c]) (charIdf lg docs c)

/-- Step 2 of `_calculateBM25` for one single-character query term: the
synthetic whole-term contribution borrowed from multi-character keywords
containing the character, scored against the whole-term average length. -/
def borrowScore (lg : ℚ → K) (e : Engine) (d : Doc) (c : Char) : K :=
  if d.charToMulti c = [] then 0
  else if borrowTF d c = 0 then 0
  else borrowIdf lg e.documents c *
    ((bmFrac e.k1 e.b (borrowTF d c) d.keywords.length (avgDocLength e.documents) : ℚ) : K)

/-- The `scoredSingleChars` set after step 2: the single-character query
terms that got a borrowed contribution for this document. -/
def consumedChars (d : Doc) (singleCharQueries : List Char) : List Char :=
  singleCharQueries.filter (fun c =>
    decide (d.charToMulti c ≠ []) && decide (0 < borrowTF d c))

/-- One character-level BM25 contribution (step 3), scored against the
character-scoped statistics. -/
def charContrib (lg : ℚ → K) (e : Engine) (d : Doc) (c : Char) : K :=
  if d.charTF c = 0 then 0
  else charIdf lg e.documents c *
    ((bmFrac e.k1 e.b (d.charTF c) d.chars.length (avgCharDocLength e.documents) : ℚ) : K)

/-- Step 3 of `_calculateBM25`: character-level score over the deduplicated
query characters, skipping characters already credited in step 2. -/
def charLevelScore (lg : ℚ → K) (e : Engine) (d : Doc)
    (queryChars singleCharQueries : List Char) : K :=
  (queryChars.map (fun c =>
    if c ∈ consumedChars d singleCharQueries then 0
    else charContrib lg e d c)).sum

/-- `_calculateBM25`: `(wholeWordScore + charScore * charWeight) * weight`,
where `wholeWordScore` accumulates steps 1 and 2. -/
def calculateBM25 (lg : ℚ → K) (e : Engine) (queryTerms : List Str)
    (queryChars singleCharQueries : List Char) (d : Doc) : K :=
  ((wholeTermScore lg e d queryTerms
      + (singleCharQueries.map (fun c => borrowScore lg e d c)).sum)
    + charLevelScore lg e d queryChars singleCharQueries * (e.charWeight : K))
  * (d.weight : K)

/-! ### Search (`SearchEngine.search`) -/

/-- One element of the `results` array of `search`. -/
structure QueryResult (K : Type u) where
  kaomoji : Str
  score : K
  matchedKeywords : List Str
  category : Str
deriving DecidableEq

/-- The single-character query terms, extracted as characters
(`queryTerms.filter(term => term.length === 1)`; a JS length-1 string is one
BMP character). -/
def singleCharsOf (queryTerms : List Str) : List Char :=
  queryTerms.filterMap (fun t => match t with | [c] => some c | _ => none)

/-- The deduplicated query characters
(`[...new Set(queryTerms.flatMap(term => term.split('')))]`). -/
def queryCharsOf (queryTerms : List Str) : List Char :=
  jsDedup (queryTerms.flatMap (fun t => t))

/-- The scored result list in corpus insertion order
(`this.documents.map(doc => ...)`). -/
def scoredResults (lg : ℚ → K) (e : Engine) (queryTerms : List Str) :
    List (QueryResult K) :=
  e.documents.map (fun d =>
    { kaomoji := d.kaomoji,
      score := calculateBM25 lg e queryTerms (queryCharsOf queryTerms)
        (singleCharsOf queryTerms) d,
      matchedKeywords := d.keywords.filter (fun k => decide (k ∈ queryTerms)),
      category := d.category })

/-- Stable insertion of a result into a descending list: the new element
goes after every strictly greater predecessor and before equal scores. -/
def insertDesc (x : QueryResult K) : List (QueryResult K) → List (QueryResult K)
  | [] => [x]
  | y :: ys => if x.score < y.score then y :: insertDesc x ys else x :: y :: ys

/-- Stable sort descending by score.  `Array.prototype.sort` is a stable
sort (ES2019), and a stable sort by one key is extensionally unique, so this
insertion sort is extensionally the source's `sort((a, b) => b.score - a.score)`. -/
def sortByScoreDesc : List (QueryResult K) → List (QueryResult K)
  | [] => []
  | x :: xs => insertDesc x (sortByScoreDesc xs)

/-- `SearchEngine.search(text, topK, threshold)`. -/
def search (lg : ℚ → K) (e : Engine) (text : Str) (topK : ℕ) (threshold : K) :
    List (QueryResult K) :=
  if text = [] then []
  else if e.documents = [] then []
  else
    let queryTerms := tokenize text
    if queryTerms = [] then []
    else
      (sortByScoreDesc ((scoredResults lg e queryTerms).filter
        (fun r => decide (threshold < r.score)))).take topK

/-! ### Marker scanning (`EmoticonReplacer`, pattern `/\[emoticon:([^\]]+)\]/gi`) -/

/-- ASCII lowering, as the `/i` regex flag compares letters. -/
def lowerAscii (c : Char) : Char :=
  if 'A' ≤ c ∧ c ≤ 'Z' then Char.ofNat (c.toNat + 32) else c

/-- Strip a literal pattern (already lowercase) case-insensitively; returns
the remaining text on success. -/
def stripCI : List Char → Str → Option Str
  | [], l => some l
  | _ :: _, [] => none
  | p :: ps, c :: cs => if lowerAscii c = p then stripCI ps cs else none

/-- Attempt to match the marker regex at the head of the text: `[emoticon:`
(tag case-insensitive) followed by one or more non-`]` characters and `]`.
On success returns the captured payload, the whole matched text, and the
remaining text. -/
def parseMarker (l : Str) : Option (Str × Str × Str) :=
  match stripCI ('[' :: "emoticon:".data) l with
  | none => none
  | some r1 =>
    let payload := r1.takeWhile (fun c => decide (c ≠ ']'))
    if payload = [] then none
    else
      match r1.drop payload.length with
      | ']' :: rest => some (payload, l.take (l.length - rest.length), rest)
      | _ => none

/-- All non-overlapping marker matches of a left-to-right scan, leftmost
first, with enough fuel (the text length suffices since every step consumes
at least one character). -/
def scanMarkers : ℕ → Str → List Str
  | 0, _ => []
  | _ + 1, [] => []
  | fuel + 1, c :: cs =>
    match parseMarker (c :: cs) with
    | some (_, matched, rest) => matched :: scanMarkers fuel rest
    | none => scanMarkers fuel cs

/-! ### The replacer (`EmoticonReplacer.replaceText`) -/

/-- The `selected` field of a replacement record: JS `null`, a single result
object, or the whole match array. -/
inductive Selected (K : Type u) where
  | nothing : Selected K
  | one (r : QueryResult K) : Selected K
  | many (rs : List (QueryResult K)) : Selected K
deriving DecidableEq

/-- The replacement strategy option. -/
inductive Strategy where
  | first | best | all
deriving DecidableEq

/-- A replacement record pushed for one marker occurrence. -/
structure Record (K : Type u) where
  index : ℕ
  original : Str
  keywords : List Str
  emoticon : Option Str
  offset : ℕ
  «matches» : List (QueryResult K)
  selected : Selected K
  notFound : Bool
deriving DecidableEq

/-- Per-call options of `replaceText` (defaults: strategy `best`,
threshold `0`, `keepOriginalOnNotFound` true, `markNotFound` false). -/
structure ReplaceOptions (K : Type u) where
  strategy : Strategy
  threshold : K
  keepOriginalOnNotFound : Bool
  markNotFound : Bool
deriving DecidableEq

/-- The result object of `replaceText`. -/
structure ReplaceResult (K : Type u) where
  text : Str
  replacements : List (Record K)
  originalText : Str
  hasReplacements : Bool
  successCount : ℕ
  failureCount : ℕ
deriving DecidableEq

/-- JS `keywordsStr.split(',')` (the configured separator). -/
def splitOnChar (sep : Char) : Str → List Str
  | [] => [[]]
  | c :: cs =>
    if c = sep then [] :: splitOnChar sep cs
    else
      match splitOnChar sep cs with
      | [] => [[c]]
      | h :: t => (c :: h) :: t

/-- JS `String.prototype.trim`. -/
def trim (s : Str) : Str :=
  ((s.dropWhile Char.isWhitespace).reverse.dropWhile Char.isWhitespace).reverse

/-- The keyword cleaning of the callback:
`split(sep).map(k => k.trim()).filter(k => k.length > 0)`. -/
def cleanKeywords (payload : Str) : List Str :=
  ((splitOnChar ',' payload).map trim).filter (fun k => decide (k ≠ []))

/-- The strategy switch on a non-empty match list `m :: ms`: `first` and
`best` (and the `default` case) take the top result's payload, `all` joins
every payload with single spaces. -/
def selectReplacement (strategy : Strategy) (m : QueryResult K)
    (ms : List (QueryResult K)) : Str × Selected K :=
  match strategy with
  | .first => (m.kaomoji, .one m)
  | .best => (m.kaomoji, .one m)
  | .all => (List.intercalate [' '] ((m :: ms).map (fun r => r.kaomoji)), .many (m :: ms))

/-- The replace callback for one marker occurrence: returns the replacement
text and the record pushed (none in the zero-keywords early return, which
also leaves `matchIndex` untouched). -/
def resolveMarker (lg : ℚ → K) (e : Engine) (opts : ReplaceOptions K)
    (payload matched : Str) (offset idx : ℕ) : Str × Option (Record K) :=
  match cleanKeywords payload with
  | [] => ((if opts.keepOriginalOnNotFound then matched else []), none)
  | _ :: _ =>
    let keywords := cleanKeywords payload
    let searchText := List.intercalate [' '] keywords
    match search lg e searchText 5 opts.threshold with
    | [] =>
      ((if opts.markNotFound then '[' :: '?' :: (payload ++ [']'])
        else if opts.keepOriginalOnNotFound then matched else []),
       some { index := idx, original := matched, keywords := keywords,
              emoticon := none, offset := offset, «matches» := [],
              selected := .nothing, notFound := true })
    | m :: ms =>
      let sel := selectReplacement opts.strategy m ms
      (sel.1,
       some { index := idx, original := matched, keywords := keywords,
              emoticon := some sel.1, offset := offset, «matches» := m :: ms,
              selected := sel.2, notFound := false })

/-- The single left-to-right pass of `String.prototype.replace` with a
global regex and the callback `res`: offsets are positions in the input
text, `idx` is the running `matchIndex`.  Fuel-indexed; the text length is
enough fuel. -/
def replaceCore (res : Str → Str → ℕ → ℕ → Str × Option (Record K)) :
    ℕ → ℕ → ℕ → Str → Str × List (Record K)
  | 0, _, _, l => (l, [])
  | _ + 1, _, _, [] => ([], [])
  | fuel + 1, pos, idx, c :: cs =>
    match parseMarker (c :: cs) with
    | some (payload, matched, rest) =>
      let step := res payload matched pos idx
      let next := replaceCore res fuel (pos + matched.length)
        (idx + (if step.2.isSome then 1 else 0)) rest
      (step.1 ++ next.1, step.2.toList ++ next.2)
    | none =>
      let next := replaceCore res fuel (pos + 1) idx cs
      (c :: next.1, next.2)

/-- `EmoticonReplacer.replaceText(text, options)`. -/
def replaceText (lg : ℚ → K) (e : Engine) (opts : ReplaceOptions K)
    (text : Str) : ReplaceResult K :=
  let out := replaceCore (resolveMarker lg e opts) text.length 0 0 text
  { text := out.1, replacements := out.2, originalText := text,
    hasReplacements := decide (0 < out.2.length),
    successCount := (out.2.filter (fun r => !r.notFound)).length,
    failureCount := (out.2.filter (fun r => r.notFound)).length }

/-! ### Helper lemmas -/

theorem jsDedupAux_mem {α : Type u} [DecidableEq α] :
    ∀ (fuel : ℕ) (l : List α), l.length ≤ fuel →
      ∀ a, (a ∈ jsDedupAux fuel l ↔ a ∈ l) := by
  intro fuel
  induction fuel with
  | zero =>
    intro l hl a
    rw [List.length_eq_zero.1 (Nat.le_zero.1 hl)]
    simp [jsDedupAux]
  | succ n ih =>
    intro l hl a
    cases l with
    | nil => simp [jsDedupAux]
    | cons b m =>
      simp only [jsDedupAux, List.mem_cons]
      rw [ih (m.filter fun x => decide (x ≠ b))
        (le_trans (List.length_filter_le _ _) (Nat.succ_le_succ_iff.1 hl))]
      simp only [List.mem_filter, decide_eq_true_eq]
      by_cases hab : a = b <;> simp [hab]

theorem jsDedup_mem {α : Type u} [DecidableEq α] (l : List α) (a : α) :
    a ∈ jsDedup l ↔ a ∈ l :=
  jsDedupAux_mem l.length l le_rfl a

theorem jsDedupAux_nodup {α : Type u} [DecidableEq α] :
    ∀ (fuel : ℕ) (l : List α), l.length ≤ fuel → (jsDedupAux fuel l).Nodup := by
  intro fuel
  induction fuel with
  | zero => intro l _; simp [jsDedupAux]
  | succ n ih =>
    intro l hl
    cases l with
    | nil => simp [jsDedupAux]
    | cons b m =>
      have hlen : (m.filter fun x => decide (x ≠ b)).length ≤ n :=
        le_trans (List.length_filter_le _ _) (Nat.succ_le_succ_iff.1 hl)
      refine List.nodup_cons.2 ⟨?_, ih _ hlen⟩
      intro hb
      have := (jsDedupAux_mem n _ hlen b).1 hb
      simp [List.mem_filter] at this

theorem jsDedup_nodup {α : Type u} [DecidableEq α] (l : List α) :
    (jsDedup l).Nodup :=
  jsDedupAux_nodup l.length l le_rfl

theorem sum_map_ite_zero {M : Type u} [AddCommMonoid M] {α : Type v}
    (l : List α) (p : α → Prop) [DecidablePred p] (f : α → M) :
    (l.map (fun a => if p a then 0 else f a)).sum
      = ((l.filter (fun a => decide (¬ p a))).map f).sum := by
  induction l with
  | nil => rfl
  | cons a l ih => by_cases h : p a <;> simp [h, ih]

theorem splitOnP_all_sep {α : Type u} (p : α → Bool) :
    ∀ l : List α, (∀ c ∈ l, p c = true) → ∀ x ∈ l.splitOnP p, x = [] := by
  intro l
  induction l with
  | nil =>
    intro _ x hx
    rw [List.splitOnP_nil] at hx
    simpa using hx
  | cons a l ih =>
    intro h x hx
    rw [List.splitOnP_cons, if_pos (h a (List.mem_cons_self a l))] at hx
    rcases List.mem_cons.1 hx with rfl | hx'
    · rfl
    · exact ih (fun c hc => h c (List.mem_cons_of_mem a hc)) x hx'

theorem whitespace_not_allowed {c : Char} (h : c.isWhitespace = true) :
    isAllowedChar c = false ∧ isCJK c = false := by
  simp only [Char.isWhitespace, Bool.or_eq_true, decide_eq_true_eq] at h
  rcases h with ((h | h) | h) | h <;> subst h <;> exact ⟨by decide, by decide⟩

theorem mem_chunkNgrams (chunk : Str) (u : Str) :
    u ∈ chunkNgrams chunk ↔
      ∃ len i, 2 ≤ len ∧ len ≤ min 4 chunk.length ∧ i + len ≤ chunk.length ∧
        u = (chunk.drop i).take len := by
  simp only [chunkNgrams, List.mem_flatMap, List.mem_map, List.mem_range,
    List.mem_range']
  constructor
  · rintro ⟨len, ⟨j, hj, rfl⟩, i, hi, rfl⟩
    exact ⟨2 + 1 * j, i, by omega, by omega, by omega, rfl⟩
  · rintro ⟨len, i, h2, h4, hil, rfl⟩
    exact ⟨len, ⟨len - 2, by omega, by omega⟩, i, by omega, rfl⟩

theorem wordsOf_whitespace (s : Str) (h : ∀ c ∈ s, c.isWhitespace = true) :
    wordsOf s = [] := by
  unfold wordsOf
  rw [List.filter_eq_nil_iff]
  intro x hx
  have hsep : ∀ c ∈ s, (!isAllowedChar c) = true := fun c hc => by
    simp [(whitespace_not_allowed (h c hc)).1]
  simp [splitOnP_all_sep _ s hsep x hx]

theorem cjkRuns_whitespace (s : Str) (h : ∀ c ∈ s, c.isWhitespace = true) :
    cjkRuns s = [] := by
  unfold cjkRuns
  rw [List.filter_eq_nil_iff]
  intro x hx
  have hsep : ∀ c ∈ s, (!isCJK c) = true := fun c hc => by
    simp [(whitespace_not_allowed (h c hc)).2]
  simp [splitOnP_all_sep _ s hsep x hx]

/-- C3: `tokenize` returns the deduplicated union of (a) the whole-word
terms obtained by replacing every character outside CJK ideographs, ASCII
letters and ASCII digits with a space and splitting on whitespace runs
dropping empties (`wordsOf`), and (b) for each maximal CJK run of the
original text, every contiguous substring of length 2 through
`min 4 (run length)` plus every single character of the run; empty or
whitespace-only input yields the empty set. -/
theorem tokenize_spec (s : Str) :
    (∀ t, t ∈ tokenize s ↔
        (t ∈ wordsOf s ∨ ∃ chunk ∈ cjkRuns s, t ∈ chunkTerms chunk))
  ∧ (tokenize s).Nodup
  ∧ (∀ chunk u, u ∈ chunkTerms chunk ↔
      ((∃ len i, 2 ≤ len ∧ len ≤ min 4 chunk.length ∧ i + len ≤ chunk.length ∧
          u = (chunk.drop i).take len)
        ∨ ∃ c ∈ chunk, u = [c]))
  ∧ ((∀ c ∈ s, c.isWhitespace = true) → tokenize s = []) := by
  refine ⟨?_, jsDedup_nodup _, ?_, ?_⟩
  · intro t
    unfold tokenize
    rw [jsDedup_mem]
    simp [List.mem_append, List.mem_flatMap]
  · intro chunk u
    unfold chunkTerms
    rw [List.mem_append, mem_chunkNgrams]
    simp only [List.mem_map]
    constructor
    · rintro (h | ⟨c, hc, rfl⟩)
      · exact Or.inl h
      · exact Or.inr ⟨c, hc, rfl⟩
    · rintro (h | ⟨c, hc, rfl⟩)
      · exact Or.inl h
      · exact Or.inr ⟨c, hc, rfl⟩
  · intro h
    unfold tokenize
    rw [wordsOf_whitespace s h, cjkRuns_whitespace s h]
    rfl

/-- Witness for C3 at a whitespace-only input. -/
theorem tokenize_spec_witness : tokenize [' ', '\t'] = [] :=
  (tokenize_spec [' ', '\t']).2.2.2 (by decide)

/-! ### Sorting lemmas for the search contract -/

theorem mem_insertDesc (x z : QueryResult K) (l : List (QueryResult K)) :
    z ∈ insertDesc x l ↔ z = x ∨ z ∈ l := by
  induction l with
  | nil => simp [insertDesc]
  | cons y ys ih =>
    simp only [insertDesc]
    split
    · simp only [List.mem_cons, ih]
      tauto
    · simp only [List.mem_cons]

theorem pairwise_insertDesc (x : QueryResult K) (l : List (QueryResult K))
    (h : l.Pairwise (fun a b => b.score ≤ a.score)) :
    (insertDesc x l).Pairwise (fun a b => b.score ≤ a.score) := by
  induction l with
  | nil => simp [insertDesc]
  | cons y ys ih =>
    rcases List.pairwise_cons.1 h with ⟨hy, hys⟩
    simp only [insertDesc]
    split
    · next hlt =>
      refine List.pairwise_cons.2 ⟨?_, ih hys⟩
      intro z hz
      rcases (mem_insertDesc x z ys).1 hz with rfl | hzys
      · exact le_of_lt hlt
      · exact hy z hzys
    · next hnlt =>
      refine List.pairwise_cons.2 ⟨?_, h⟩
      intro z hz
      rcases List.mem_cons.1 hz with rfl | hzys
      · exact not_lt.1 hnlt
      · exact le_trans (hy z hzys) (not_lt.1 hnlt)

theorem filter_insertDesc (x : QueryResult K) (l : List (QueryResult K)) (s : K) :
    (insertDesc x l).filter (fun r => decide (r.score = s))
      = if x.score = s then x :: l.filter (fun r => decide (r.score = s))
        else l.filter (fun r => decide (r.score = s)) := by
  induction l with
  | nil => by_cases hx : x.score = s <;> simp [insertDesc, hx]
  | cons y ys ih =>
    simp only [insertDesc]
    split
    · next hlt =>
      by_cases hx : x.score = s
      · have hys : ¬ y.score = s := by rw [← hx]; exact ne_of_gt hlt
        simp [List.filter_cons, hys, ih, hx]
      · by_cases hy : y.score = s <;> simp [List.filter_cons, hy, ih, hx]
    · next hnlt =>
      by_cases hx : x.score = s <;> simp [List.filter_cons, hx]

theorem mem_sortByScoreDesc (z : QueryResult K) (l : List (QueryResult K)) :
    z ∈ sortByScoreDesc l ↔ z ∈ l := by
  induction l with
  | nil => simp [sortByScoreDesc]
  | cons x xs ih =>
    simp only [sortByScoreDesc, mem_insertDesc, ih, List.mem_cons]

theorem pairwise_sortByScoreDesc (l : List (QueryResult K)) :
    (sortByScoreDesc l).Pairwise (fun a b => b.score ≤ a.score) := by
  induction l with
  | nil => simp [sortByScoreDesc]
  | cons x xs ih => exact pairwise_insertDesc x _ ih

theorem filter_sortByScoreDesc (l : List (QueryResult K)) (s : K) :
    (sortByScoreDesc l).filter (fun r => decide (r.score = s))
      = l.filter (fun r => decide (r.score = s)) := by
  induction l with
  | nil => rfl
  | cons x xs ih =>
    simp only [sortByScoreDesc, filter_insertDesc, ih, List.filter_cons]
    by_cases hx : x.score = s <;> simp [hx]

/-- C1: `search(q, k, t)` returns at most `k` results, every returned score
is strictly greater than `t`, the sequence is sorted non-increasing by
score, and results with any fixed score form a sublist of the scored result
list in corpus insertion order (stable sort: ties keep insertion order). -/
theorem search_contract (lg : ℚ → K) (e : Engine) (q : Str) (k : ℕ) (t : K) :
    (search lg e q k t).length ≤ k
  ∧ (∀ r ∈ search lg e q k t, t < r.score)
  ∧ (search lg e q k t).Pairwise (fun a b => b.score ≤ a.score)
  ∧ (∀ s : K, ((search lg e q k t).filter (fun r => decide (r.score = s))).Sublist
      ((scoredResults lg e (tokenize q)).filter (fun r => decide (r.score = s)))) := by
  unfold search
  split
  · simp
  · split
    · simp
    · dsimp only
      split
      · simp
      · refine ⟨?_, ?_, ?_, ?_⟩
        · rw [List.length_take]
          exact min_le_left _ _
        · intro r hr
          have hr1 : r ∈ sortByScoreDesc ((scoredResults lg e (tokenize q)).filter
              (fun r => decide (t < r.score))) := (List.take_sublist _ _).mem hr
          have hr2 := (mem_sortByScoreDesc _ _).1 hr1
          have := List.of_mem_filter hr2
          simpa using this
        · exact (pairwise_sortByScoreDesc _).sublist (List.take_sublist _ _)
        · intro s
          have h1 : ((sortByScoreDesc ((scoredResults lg e (tokenize q)).filter
                (fun r => decide (t < r.score)))).take k).filter
                (fun r => decide (r.score = s))
              |>.Sublist (((scoredResults lg e (tokenize q)).filter
                (fun r => decide (t < r.score))).filter (fun r => decide (r.score = s))) := by
            rw [← filter_sortByScoreDesc ((scoredResults lg e (tokenize q)).filter
              (fun r => decide (t < r.score))) s]
            exact (List.take_sublist _ _).filter _
          exact h1.trans ((List.filter_sublist _).filter _)

/-! ### C4: empty query or empty corpus -/

/-- C4: a query whose tokenization is empty, and any query against an index
of zero documents, yields the empty result sequence.  (The embedding is a
total function, so no exception can be raised.) -/
theorem search_empty_cases (lg : ℚ → K) (e : Engine) (q : Str) (k : ℕ) (t : K) :
    (tokenize q = [] → search lg e q k t = [])
  ∧ (e.documents = [] → search lg e q k t = []) := by
  constructor <;> intro h <;> unfold search <;> simp [h]

/-- Witness for C4: a punctuation-only query tokenizes to nothing, and the
freshly constructed engine holds zero documents. -/
theorem search_empty_cases_witness :
    search (fun q : ℚ => q) (mkEngine {}) ['!', '?'] 5 0 = []
  ∧ search (fun q : ℚ => q) (mkEngine {}) ['a'] 5 0 = [] :=
  ⟨(search_empty_cases (fun q : ℚ => q) (mkEngine {}) ['!', '?'] 5 0).1 (by decide),
   (search_empty_cases (fun q : ℚ => q) (mkEngine {}) ['a'] 5 0).2 rfl⟩

/-! ### C9: zero-valued options fall back to the defaults -/

/-- C9: a configuration whose `k1`, `b` or `charWeight` is explicitly `0`
produces the same engine as one omitting the option (defaults `1.5`, `0.75`,
`0.6`), and an entry weight of `0` is indexed as `1.0`; so character scoring
cannot be disabled by setting `charWeight` to `0`. -/
theorem zero_options_mean_defaults (cfg : Config) (e : Engine) (ent : Entry) :
    (cfg.k1 = some 0 →
      (mkEngine cfg).k1 = 3 / 2 ∧ mkEngine cfg = mkEngine { cfg with k1 := none })
  ∧ (cfg.b = some 0 →
      (mkEngine cfg).b = 3 / 4 ∧ mkEngine cfg = mkEngine { cfg with b := none })
  ∧ (cfg.charWeight = some 0 →
      (mkEngine cfg).charWeight = 3 / 5
        ∧ mkEngine cfg = mkEngine { cfg with charWeight := none })
  ∧ (ent.weight = some 0 →
      (mkDoc ent).weight = 1
        ∧ buildIndex e [ent] = buildIndex e [{ ent with weight := none }]) := by
  refine ⟨?_, ?_, ?_, ?_⟩ <;> intro h <;>
    simp [mkEngine, mkDoc, buildIndex, jsOrNum, h]

/-- Witness for C9 at an explicit all-zero configuration and a zero-weight
entry. -/
theorem zero_options_mean_defaults_witness :
    (mkEngine { k1 := some 0, b := some 0, charWeight := some 0 }).k1 = 3 / 2
  ∧ (mkDoc { kaomoji := ['x'], keywords := [['k']], weight := some 0 }).weight = 1 :=
  ⟨((zero_options_mean_defaults { k1 := some 0, b := some 0, charWeight := some 0 }
      (mkEngine {}) { kaomoji := ['x'], keywords := [['k']], weight := some 0 }).1 rfl).1,
   ((zero_options_mean_defaults { k1 := some 0, b := some 0, charWeight := some 0 }
      (mkEngine {}) { kaomoji := ['x'], keywords := [['k']], weight := some 0 }).2.2.2 rfl).1⟩

/-! ### C10: count bookkeeping of replaceText -/

theorem length_filter_not_add {α : Type u} (p : α → Bool) (l : List α) :
    (l.filter (fun a => !p a)).length + (l.filter p).length = l.length := by
  induction l with
  | nil => rfl
  | cons a l ih => cases h : p a <;> simp [List.filter_cons, h, ← ih] <;> omega

/-- C10: for every call to `replaceText`, `successCount + failureCount`
equals the number of replacement records, and `hasReplacements` is true
exactly when at least one record was produced — in particular it is true
even when every marker failed to resolve. -/
theorem replace_counts_invariant (lg : ℚ → K) (e : Engine)
    (opts : ReplaceOptions K) (s : Str) :
    (replaceText lg e opts s).successCount + (replaceText lg e opts s).failureCount
      = (replaceText lg e opts s).replacements.length
  ∧ ((replaceText lg e opts s).hasReplacements = true ↔
      0 < (replaceText lg e opts s).replacements.length) := by
  constructor
  · exact length_filter_not_add _ _
  · simp [replaceText]

/-! ### C5: not-found policy of the replacement callback -/

/-- C5: for a marker occurrence with a non-empty cleaned keyword list whose
search returns no results, the callback substitutes `[?<payload>]` when
`markNotFound` is set, otherwise keeps the original marker text when
`keepOriginalOnNotFound` is set and otherwise the empty string; in all
three cases it still pushes a record carrying the `notFound` flag. -/
theorem notfound_policy (lg : ℚ → K) (e : Engine) (opts : ReplaceOptions K)
    (payload matched : Str) (off idx : ℕ)
    (h1 : cleanKeywords payload ≠ [])
    (h2 : search lg e (List.intercalate [' '] (cleanKeywords payload)) 5
      opts.threshold = []) :
    resolveMarker lg e opts payload matched off idx =
      ((if opts.markNotFound then '[' :: '?' :: (payload ++ [']'])
        else if opts.keepOriginalOnNotFound then matched else []),
       some { index := idx, original := matched, keywords := cleanKeywords payload,
              emoticon := none, offset := off, «matches» := [],
              selected := .nothing, notFound := true }) := by
  obtain ⟨a, as, hk⟩ := List.exists_cons_of_ne_nil h1
  rw [hk] at h2
  simp only [resolveMarker, hk, h2]

/-- Witness for C5: a marker payload against the empty corpus, under each of
the three policies at once (the record part is shared). -/
theorem notfound_policy_witness :
    resolveMarker (fun q : ℚ => q) (mkEngine {})
        { strategy := .best, threshold := 0, keepOriginalOnNotFound := true,
          markNotFound := true }
        "不存在".data "[emoticon:不存在]".data 2 0 =
      ('[' :: '?' :: ("不存在".data ++ [']']),
       some { index := 0, original := "[emoticon:不存在]".data,
              keywords := cleanKeywords "不存在".data, emoticon := none,
              offset := 2, «matches» := [], selected := .nothing,
              notFound := true }) := by
  rw [notfound_policy (fun q : ℚ => q) (mkEngine {}) _ "不存在".data
    "[emoticon:不存在]".data 2 0 (by decide) rfl]
  rfl

/-! ### C8: strategies first and best coincide -/

/-- C8: `replaceText` with strategy `first` and with strategy `best` return
identical results on every input, options and corpus: both select the
top-ranked result's payload for every resolved marker. -/
theorem first_eq_best (lg : ℚ → K) (e : Engine) (t : K) (ko mn : Bool) (s : Str) :
    replaceText lg e
        { strategy := .first, threshold := t, keepOriginalOnNotFound := ko,
          markNotFound := mn } s
      = replaceText lg e
        { strategy := .best, threshold := t, keepOriginalOnNotFound := ko,
          markNotFound := mn } s := by
  have hres : resolveMarker (K := K) lg e
      { strategy := .first, threshold := t, keepOriginalOnNotFound := ko,
        markNotFound := mn }
      = resolveMarker (K := K) lg e
      { strategy := .best, threshold := t, keepOriginalOnNotFound := ko,
        markNotFound := mn } := by
    funext payload matched off idx
    unfold resolveMarker
    cases hk : cleanKeywords payload with
    | nil => rfl
    | cons a as =>
      simp only [hk]
      dsimp only
      cases hs : search lg e (List.intercalate [' '] (a :: as)) 5 t with
      | nil => simp [hs]
      | cons m ms => simp [hs, selectReplacement]
  unfold replaceText
  rw [hres]

/-! ### C7: the stored IDF values -/

theorem one_lt_idfArg {N df : ℕ} (h : df ≤ N) : 1 < idfArg N df := by
  unfold idfArg
  have hd : (0 : ℚ) < (df : ℚ) + 1 / 2 := by positivity
  have hn : (0 : ℚ) < (N : ℚ) - (df : ℚ) + 1 / 2 := by
    have hc : (df : ℚ) ≤ (N : ℚ) := by exact_mod_cast h
    linarith
  have := div_pos hn hd
  linarith

theorem termDF_le_length (docs : List Doc) (t : Str) :
    termDF docs t ≤ docs.length :=
  List.countP_le_length _

theorem charDF_le_length (docs : List Doc) (c : Char) :
    charDF docs c ≤ docs.length :=
  List.countP_le_length _

/-- C7: for every term and character in the built vocabularies (positive
document frequency), the stored IDF equals
`ln((N - df + 0.5) / (df + 0.5) + 1)` and is non-negative. -/
theorem idf_formula (docs : List Doc) (t : Str) (c : Char) :
    (0 < termDF docs t →
       termIdf (fun q : ℚ => Real.log (q : ℝ)) docs t
         = Real.log (((docs.length : ℝ) - (termDF docs t : ℝ) + 1 / 2)
             / ((termDF docs t : ℝ) + 1 / 2) + 1)
       ∧ 0 ≤ termIdf (fun q : ℚ => Real.log (q : ℝ)) docs t)
  ∧ (0 < charDF docs c →
       charIdf (fun q : ℚ => Real.log (q : ℝ)) docs c
         = Real.log (((docs.length : ℝ) - (charDF docs c : ℝ) + 1 / 2)
             / ((charDF docs c : ℝ) + 1 / 2) + 1)
       ∧ 0 ≤ charIdf (fun q : ℚ => Real.log (q : ℝ)) docs c) := by
  constructor
  · intro h
    have hle : (1 : ℝ) ≤ ((idfArg docs.length (termDF docs t) : ℚ) : ℝ) := by
      exact_mod_cast (one_lt_idfArg (termDF_le_length docs t)).le
    have hcast : ((idfArg docs.length (termDF docs t) : ℚ) : ℝ)
        = ((docs.length : ℝ) - (termDF docs t : ℝ) + 1 / 2)
          / ((termDF docs t : ℝ) + 1 / 2) + 1 := by
      unfold idfArg
      push_cast
      ring
    unfold termIdf
    rw [if_pos h]
    refine ⟨?_, ?_⟩ <;> dsimp only
    · rw [hcast]
    · exact Real.log_nonneg hle
  · intro h
    have hle : (1 : ℝ) ≤ ((idfArg docs.length (charDF docs c) : ℚ) : ℝ) := by
      exact_mod_cast (one_lt_idfArg (charDF_le_length docs c)).le
    have hcast : ((idfArg docs.length (charDF docs c) : ℚ) : ℝ)
        = ((docs.length : ℝ) - (charDF docs c : ℝ) + 1 / 2)
          / ((charDF docs c : ℝ) + 1 / 2) + 1 := by
      unfold idfArg
      push_cast
      ring
    unfold charIdf
    rw [if_pos h]
    refine ⟨?_, ?_⟩ <;> dsimp only
    · rw [hcast]
    · exact Real.log_nonneg hle

/-- Witness for C7 at a one-document corpus containing keyword `k`. -/
theorem idf_formula_witness :
    0 < termDF [mkDoc { kaomoji := ['x'], keywords := [['k']] }] ['k']
  ∧ (termIdf (fun q : ℚ => Real.log (q : ℝ))
        [mkDoc { kaomoji := ['x'], keywords := [['k']] }] ['k']
      = Real.log ((([mkDoc { kaomoji := ['x'], keywords := [['k']] }].length : ℝ)
            - (termDF [mkDoc { kaomoji := ['x'], keywords := [['k']] }] ['k'] : ℝ)
            + 1 / 2)
          / ((termDF [mkDoc { kaomoji := ['x'], keywords := [['k']] }] ['k'] : ℝ)
            + 1 / 2) + 1)
     ∧ 0 ≤ termIdf (fun q : ℚ => Real.log (q : ℝ))
        [mkDoc { kaomoji := ['x'], keywords := [['k']] }] ['k']) :=
  ⟨by decide,
   (idf_formula [mkDoc { kaomoji := ['x'], keywords := [['k']] }] ['k'] 'k').1 (by decide)⟩

/-! ### C2: single-character borrowing from multi-character keywords -/

theorem borrowTF_pos (d : Doc) (c : Char) (h : d.charToMulti c ≠ []) :
    0 < borrowTF d c := by
  obtain ⟨kw, kws, hk⟩ := List.exists_cons_of_ne_nil h
  have hkw : kw ∈ d.charToMulti c := by
    rw [hk]; exact List.mem_cons_self _ _
  have hmem : kw ∈ d.keywords :=
    List.mem_of_mem_filter (List.mem_of_mem_filter hkw)
  have h1 : 0 < d.kwTF kw := List.count_pos_iff.2 hmem
  unfold borrowTF
  rw [hk]
  simp only [List.map_cons, List.sum_cons]
  omega

/-- With the real logarithm, an existing whole-term IDF entry is strictly
positive, so the JS fallback chain resolves to it exactly when the entry
exists (otherwise to the character IDF table). -/
theorem borrowIdf_real (docs : List Doc) (c : Char) :
    borrowIdf (fun q : ℚ => Real.log (q : ℝ)) docs c
      = if 0 < termDF docs [c] then
          Real.log ((idfArg docs.length (termDF docs [c]) : ℚ) : ℝ)
        else charIdf (fun q : ℚ => Real.log (q : ℝ)) docs c := by
  unfold borrowIdf jsOr termIdf
  by_cases h : 0 < termDF docs [c]
  · rw [if_pos h, if_pos h]
    have h1 : (1 : ℝ) < ((idfArg docs.length (termDF docs [c]) : ℚ) : ℝ) := by
      exact_mod_cast one_lt_idfArg (termDF_le_length docs [c])
    have hpos : 0 < Real.log ((idfArg docs.length (termDF docs [c]) : ℚ) : ℝ) :=
      Real.log_pos h1
    rw [if_neg (ne_of_gt hpos)]
  · rw [if_neg h, if_neg h, if_pos rfl]

/-- C2: for a single-character query term `c`, if this document has
multi-character keywords containing `c`, the synthetic whole-term
contribution uses the summed keyword term frequency of those keywords as
`tf`, prefers the character's whole-term IDF entry and falls back to its
character IDF, is scored against the whole-term average length, the
character is marked consumed for exactly the single-character terms with a
match in this document (scoping is per document), and consumed characters
contribute nothing to this document's character-level score. -/
theorem borrow_scoring (e : Engine) (d : Doc) (qt : List Str)
    (qc scq : List Char) (c : Char) :
    (c ∈ scq → d.charToMulti c ≠ [] →
       (borrowScore (fun q : ℚ => Real.log (q : ℝ)) e d c
          = (if 0 < termDF e.documents [c] then
               Real.log ((idfArg e.documents.length (termDF e.documents [c]) : ℚ) : ℝ)
             else charIdf (fun q : ℚ => Real.log (q : ℝ)) e.documents c)
            * ((bmFrac e.k1 e.b (borrowTF d c) d.keywords.length
                (avgDocLength e.documents) : ℚ) : ℝ)
        ∧ c ∈ consumedChars d scq))
  ∧ (∀ x, x ∈ consumedChars d scq ↔
      (x ∈ scq ∧ d.charToMulti x ≠ [] ∧ 0 < borrowTF d x))
  ∧ calculateBM25 (fun q : ℚ => Real.log (q : ℝ)) e qt qc scq d
      = ((wholeTermScore (fun q : ℚ => Real.log (q : ℝ)) e d qt
            + (scq.map (fun x =>
                borrowScore (fun q : ℚ => Real.log (q : ℝ)) e d x)).sum)
          + ((qc.filter (fun x => decide (x ∉ consumedChars d scq))).map
              (fun x => charContrib (fun q : ℚ => Real.log (q : ℝ)) e d x)).sum
            * ((e.charWeight : ℚ) : ℝ))
        * ((d.weight : ℚ) : ℝ) := by
  refine ⟨?_, ?_, ?_⟩
  · intro hc hm
    have htf : 0 < borrowTF d c := borrowTF_pos d c hm
    constructor
    · unfold borrowScore
      rw [if_neg hm, if_neg (Nat.pos_iff_ne_zero.1 htf), borrowIdf_real]
    · unfold consumedChars
      rw [List.mem_filter]
      refine ⟨hc, ?_⟩
      simp [hm, htf]
  · intro x
    unfold consumedChars
    rw [List.mem_filter]
    simp
  · unfold calculateBM25 charLevelScore
    rw [sum_map_ite_zero qc (fun x => x ∈ consumedChars d scq)]

/-- Witness for C2: one document with keyword `开心`, querying with the
lone character `开`. -/
theorem borrow_scoring_witness :
    borrowScore (fun q : ℚ => Real.log (q : ℝ))
        (buildIndex (mkEngine {}) [{ kaomoji := ['x'], keywords := ["开心".data] }])
        (mkDoc { kaomoji := ['x'], keywords := ["开心".data] }) '开'
      = (if 0 < termDF (buildIndex (mkEngine {})
            [{ kaomoji := ['x'], keywords := ["开心".data] }]).documents ['开'] then
           Real.log ((idfArg (buildIndex (mkEngine {})
              [{ kaomoji := ['x'], keywords := ["开心".data] }]).documents.length
              (termDF (buildIndex (mkEngine {})
                [{ kaomoji := ['x'], keywords := ["开心".data] }]).documents ['开']) : ℚ) : ℝ)
         else charIdf (fun q : ℚ => Real.log (q : ℝ))
            (buildIndex (mkEngine {})
              [{ kaomoji := ['x'], keywords := ["开心".data] }]).documents '开')
        * ((bmFrac (buildIndex (mkEngine {})
              [{ kaomoji := ['x'], keywords := ["开心".data] }]).k1
            (buildIndex (mkEngine {})
              [{ kaomoji := ['x'], keywords := ["开心".data] }]).b
            (borrowTF (mkDoc { kaomoji := ['x'], keywords := ["开心".data] }) '开')
            (mkDoc { kaomoji := ['x'], keywords := ["开心".data] }).keywords.length
            (avgDocLength (buildIndex (mkEngine {})
              [{ kaomoji := ['x'], keywords := ["开心".data] }]).documents) : ℚ) : ℝ)
  ∧ '开' ∈ consumedChars (mkDoc { kaomoji := ['x'], keywords := ["开心".data] }) ['开'] :=
  (borrow_scoring (buildIndex (mkEngine {}) [{ kaomoji := ['x'], keywords := ["开心".data] }])
      (mkDoc { kaomoji := ['x'], keywords := ["开心".data] })
      [['开']] ['开', '心'] ['开'] '开').1 (by decide) (by decide)

/-! ### C6: idempotence on marker-free output -/

omit [LinearOrderedField K] in
theorem replaceCore_of_no_markers (res : Str → Str → ℕ → ℕ → Str × Option (Record K)) :
    ∀ (fuel pos idx : ℕ) (l : Str), scanMarkers fuel l = [] →
      replaceCore res fuel pos idx l = (l, []) := by
  intro fuel
  induction fuel with
  | zero => intro pos idx l _; rfl
  | succ n ih =>
    intro pos idx l h
    cases l with
    | nil => rfl
    | cons c cs =>
      cases hp : parseMarker (c :: cs) with
      | some v =>
        rw [scanMarkers, hp] at h
        cases h
      | none =>
        rw [scanMarkers, hp] at h
        rw [replaceCore, hp]
        rw [ih (pos + 1) idx cs h]

/-- C6: whenever a run of `replaceText` leaves no marker syntax in its
output (every resolved payload and surviving text is marker-free, the
caveat of the claim), re-invoking `replaceText` on that output — under any
options — is a no-op returning the text unchanged, no records and
`hasReplacements = false`. -/
theorem replace_idempotent_when_marker_free (lg : ℚ → K) (e : Engine)
    (opts opts2 : ReplaceOptions K) (s : Str)
    (h : scanMarkers (replaceText lg e opts s).text.length
      (replaceText lg e opts s).text = []) :
    replaceText lg e opts2 (replaceText lg e opts s).text
      = { text := (replaceText lg e opts s).text,
          replacements := [],
          originalText := (replaceText lg e opts s).text,
          hasReplacements := false,
          successCount := 0,
          failureCount := 0 } := by
  generalize (replaceText lg e opts s).text = out at h ⊢
  unfold replaceText
  dsimp only
  rw [replaceCore_of_no_markers (resolveMarker lg e opts2) out.length 0 0 out h]
  rfl

/-- Witness for C6: stripping an unresolvable marker
(`keepOriginalOnNotFound = false`) leaves marker-free output, on which a
re-run is a no-op. -/
theorem replace_idempotent_witness :
    replaceText (fun q : ℚ => q) (mkEngine {})
        { strategy := .best, threshold := 0, keepOriginalOnNotFound := false,
          markNotFound := false }
        ((replaceText (fun q : ℚ => q) (mkEngine {})
          { strategy := .best, threshold := 0, keepOriginalOnNotFound := false,
            markNotFound := false } "hi[emoticon:x]".data).text)
      = { text := (replaceText (fun q : ℚ => q) (mkEngine {})
            { strategy := .best, threshold := 0, keepOriginalOnNotFound := false,
              markNotFound := false } "hi[emoticon:x]".data).text,
          replacements := [],
          originalText := (replaceText (fun q : ℚ => q) (mkEngine {})
            { strategy := .best, threshold := 0, keepOriginalOnNotFound := false,
              markNotFound := false } "hi[emoticon:x]".data).text,
          hasReplacements := false,
          successCount := 0,
          failureCount := 0 } :=
  replace_idempotent_when_marker_free (fun q : ℚ => q) (mkEngine {}) _ _
    "hi[emoticon:x]".data (by decide)

end Kaomoji
